import Mathlib

/-!
Verification of the financial-data extraction pipeline (src/index.py).

The file embeds the program shallowly:

* JSON objects returned by the remote XBRL-to-JSON conversion service are
  association lists (`Obs`, `Items`, `ConversionResult`), matching Python
  dicts (insertion order preserved, unique keys).
* pandas DataFrames are `Table`: an ordered column list plus an ordered list
  of rows, each row being an index label with an association list of cells.
  `Table.setCell` mirrors `df.loc[item, col] = v` (updates every row whose
  label matches, else appends a fresh row), `Table.addColIfMissing` mirrors
  the guarded `if col not in df.columns: df[col] = None`, and
  `Table.setConstCol` mirrors `df[col] = scalar`.
* The three extractors `extract_income_statement`, `extract_balance_sheet`
  and `extract_cash_flow` transcribe lines 132-196 of index.py.  A Python
  dict subscript that can raise `KeyError` is modelled with `Except`.
* The HTTP conversion client (lines 14-120) is parameterised by an `Env` of
  effectful primitives (file reads, HTTP, JSON parsing, gzip, base64); its
  control flow, logging and try/except behaviour are transcribed.
* The orchestrator `main` (lines 198-288) is modelled per phase:
  `processDocument` (the per-file loop body, lines 214-244), `collectStep` /
  `collectPhase` (lines 251-265) and `combinePhase` (lines 268-281), with an
  `Effect` trace recording remote calls, log lines, sleeps and CSV writes.
-/

inductive LogLevel where
  | info
  | warning
  | error
deriving DecidableEq, Repr

structure LogEntry where
  level : LogLevel
  msg : String
deriving DecidableEq, Repr

/-- A JSON object holding one observation, carrying fields such as
period (or date) and value, as an association list (Python dict). -/
abbrev Obs := List (String × String)

/-- One statement-kind section: line-item label to observation sequence. -/
abbrev Items := List (String × List Obs)

/-- The top-level JSON object returned by the conversion service:
statement-kind key to its section. -/
abbrev ConversionResult := List (String × Items)

/-- Python dict lookup `d[k]` / `k in d` on an association list. -/
def alookup {α : Type} : List (String × α) → String → Option α
  | [], _ => none
  | (k0, v0) :: rest, key => if k0 = key then some v0 else alookup rest key

/-- Set key `k` to `v` in an association list, overwriting an existing
binding in place, else appending. -/
def upsert : List (String × String) → String → String → List (String × String)
  | [], k, v => [(k, v)]
  | (k0, v0) :: rest, k, v =>
    if k0 = k then (k, v) :: rest else (k0, v0) :: upsert rest k v

/-- A pandas DataFrame as used by index.py: ordered columns, ordered rows,
each row an index label with its cells.  A missing cell is NaN. -/
structure Table where
  cols : List String
  rows : List (String × List (String × String))
deriving DecidableEq, Repr

/-- Mirrors `pd.DataFrame()` - the empty frame. -/
def Table.empty : Table := ⟨[], []⟩

/-- The index of the frame, in order. -/
def Table.rowLabels (t : Table) : List String := t.rows.map Prod.fst

/-- Mirrors `r in df.index`. -/
def Table.hasRow (t : Table) (r : String) : Bool :=
  t.rows.any (fun row => row.1 = r)

/-- Mirrors `if c not in df.columns: df[c] = None` - appends a fresh
all-NaN column. -/
def Table.addColIfMissing (t : Table) (c : String) : Table :=
  if c ∈ t.cols then t else ⟨t.cols ++ [c], t.rows⟩

/-- Mirrors `df.loc[r, c] = v`: every row labelled `r` gets cell `(c, v)`;
if no row is labelled `r`, a fresh row is appended (other cells NaN). -/
def Table.setCell (t : Table) (r c v : String) : Table :=
  if t.hasRow r then
    ⟨t.cols, t.rows.map (fun row => if row.1 = r then (row.1, upsert row.2 c v) else row)⟩
  else
    ⟨t.cols, t.rows ++ [(r, [(c, v)])]⟩

/-- Mirrors `df[c] = scalar`: creates or overwrites column `c`, same
value on every row. -/
def Table.setConstCol (t : Table) (c v : String) : Table :=
  ⟨if c ∈ t.cols then t.cols else t.cols ++ [c],
   t.rows.map (fun row => (row.1, upsert row.2 c v))⟩

/-- Reads `df.loc[r, c]` back (first row labelled `r`). -/
def Table.getCell (t : Table) (r c : String) : Option String :=
  (t.rows.find? (fun row => row.1 = r)).bind (fun row => alookup row.2 c)

/-! ### The extractor loops (index.py lines 150-155, 170-175, 188-193)

The loop body `period = value['period']; if period not in df.columns:
df[period] = None; df.loc[item, period] = value['value']` - a dict
subscript raises `KeyError` when the field is absent, hence `Except`. -/

def processObs (colKey item : String) (t : Table) (obs : Obs) : Except String Table :=
  match alookup obs colKey with
  | none => .error ("KeyError: " ++ colKey)
  | some p =>
    match alookup obs "value" with
    | none => .error "KeyError: value"
    | some v => .ok ((t.addColIfMissing p).setCell item p v)

def processItem (colKey : String) (t : Table) (it : String × List Obs) :
    Except String Table :=
  it.2.foldlM (processObs colKey it.1) t

/-- index.py lines 132-160. -/
def extract_income_statement (json_data : ConversionResult) (source_file : String) :
    List LogEntry × Except String (Option Table) :=
  match alookup json_data "StatementsOfIncome" with
  | none =>
    ([⟨.warning, "No income statement found in " ++ source_file⟩], .ok none)
  | some items =>
    ([], (items.foldlM (processItem "period") Table.empty).map
        (fun t => some (t.setConstCol "source_file" source_file)))

/-- index.py lines 162-178. -/
def extract_balance_sheet (json_data : ConversionResult) (source_file : String) :
    List LogEntry × Except String (Option Table) :=
  match alookup json_data "BalanceSheets" with
  | none =>
    ([⟨.warning, "No balance sheet found in " ++ source_file⟩], .ok none)
  | some items =>
    ([], (items.foldlM (processItem "date") Table.empty).map
        (fun t => some (t.setConstCol "source_file" source_file)))

/-- index.py lines 180-196. -/
def extract_cash_flow (json_data : ConversionResult) (source_file : String) :
    List LogEntry × Except String (Option Table) :=
  match alookup json_data "StatementsOfCashFlows" with
  | none =>
    ([⟨.warning, "No cash flow statement found in " ++ source_file⟩], .ok none)
  | some items =>
    ([], (items.foldlM (processItem "period") Table.empty).map
        (fun t => some (t.setConstCol "source_file" source_file)))

/-- The three extractors differ only in the section key, the per-observation
column key and the warning text; this is that common shape, used to state
per-kind key facts. -/
def extractStatement (sectionKey colKey warnMsg : String)
    (json_data : ConversionResult) (src : String) :
    List LogEntry × Except String (Option Table) :=
  match alookup json_data sectionKey with
  | none => ([⟨.warning, warnMsg⟩], .ok none)
  | some items =>
    ([], (items.foldlM (processItem colKey) Table.empty).map
        (fun t => some (t.setConstCol "source_file" src)))

/-! ### Pure counterparts of the extraction loop, and specification
functions used in theorem statements. -/

/-- Pure loop body, agreeing with `processObs` on well-formed observations. -/
def processObsP (colKey item : String) (t : Table) (obs : Obs) : Table :=
  match alookup obs colKey, alookup obs "value" with
  | some p, some v => (t.addColIfMissing p).setCell item p v
  | _, _ => t

def processItemP (colKey : String) (t : Table) (it : String × List Obs) : Table :=
  it.2.foldl (processObsP colKey it.1) t

def extractBodyP (colKey : String) (items : Items) : Table :=
  items.foldl (processItemP colKey) Table.empty

/-- An observation carries both the column field and the value field. -/
def obsWF (colKey : String) (obs : Obs) : Bool :=
  (alookup obs colKey).isSome && (alookup obs "value").isSome

def itemsWF (colKey : String) (items : Items) : Bool :=
  items.all (fun it => it.2.all (obsWF colKey))

/-- Append an element unless already present (first-seen order). -/
def insertNew (acc : List String) (p : String) : List String :=
  if p ∈ acc then acc else acc ++ [p]

/-- Labels of line items having at least one observation, in order. -/
def nonEmptyLabels (items : Items) : List String :=
  (items.filter (fun it => !it.2.isEmpty)).map Prod.fst

def seenColsObs (colKey : String) (acc : List String) (vs : List Obs) : List String :=
  vs.foldl (fun a obs =>
    match alookup obs colKey with
    | some p => insertNew a p
    | none => a) acc

def seenColsFrom (colKey : String) (acc : List String) (items : Items) : List String :=
  items.foldl (fun a it => seenColsObs colKey a it.2) acc

/-- The distinct periods/dates appearing across all observations of a
section, in first-seen order. -/
def seenCols (colKey : String) (items : Items) : List String :=
  seenColsFrom colKey [] items

/-- The value of the last observation in `vs` whose column field equals
`p` (and no such observation gives `none`). -/
def lastObsValue (colKey : String) (vs : List Obs) (p : String) : Option String :=
  match vs with
  | [] => none
  | obs :: rest =>
    match lastObsValue colKey rest p with
    | some v => some v
    | none =>
      match alookup obs colKey, alookup obs "value" with
      | some q, some v => if q = p then some v else none
      | _, _ => none

/-! ### The conversion client (index.py lines 14-120) -/

inductive HttpOutcome where
  | response (status : Nat) (text : String)
  | exn (msg : String)

/-- The effectful primitives the client calls into: file reads, HTTP,
JSON parsing, gzip compression and base64 encoding. -/
structure Env where
  readFirstLines : String → Except String String
  readFileBytes : String → Except String String
  httpGet : String → HttpOutcome
  httpPost : String → List (String × String) → HttpOutcome
  parseJson : String → Except String ConversionResult
  gzipCompress : String → String
  b64encode : String → String

/-- Python `str.split(c)`: split on every occurrence of one character,
keeping empty pieces (structural, unlike `String.splitOn`, so that proofs
can evaluate it). -/
def splitChar (c : Char) (s : String) : List String :=
  s.data.foldr
    (fun ch acc =>
      match acc with
      | [] => [String.singleton ch]
      | cur :: rest =>
        if ch = c then "" :: cur :: rest
        else (String.singleton ch ++ cur) :: rest)
    [""]

/-- Mirrors `os.path.basename`. -/
def basename (p : String) : String := (splitChar '/' p).getLastD p

/-- Line 43: `file_name.split('_')[2].split('.')[0] if len(...) > 2 else "2021"`. -/
def urlYear (file_name : String) : String :=
  let parts := splitChar '_' file_name
  if parts.length > 2 then (splitChar '.' (parts.getD 2 "")).headD "" else "2021"

/-- Line 46. -/
def secUrl (file_name : String) : String :=
  "https://www.sec.gov/Archives/edgar/data/320193/000032019" ++ urlYear file_name
    ++ "000056/aapl-" ++ urlYear file_name ++ "0327.htm"

/-- Line 50. -/
def finalUrl (file_name api_key : String) : String :=
  "https://api.sec-api.io/xbrl-to-json?htm-url=" ++ secUrl file_name
    ++ "&token=" ++ api_key

/-- index.py lines 14-65: the reference-based (URL) conversion strategy.
Every exception inside the `try` is caught and turned into an error log
plus `None`; a non-200 status is logged with file name, status code and
the first 200 characters of the body, and yields `None`. -/
def process_html_file_with_url (env : Env) (file_path api_key : String) :
    List LogEntry × Option ConversionResult :=
  let file_name := basename file_path
  match env.readFirstLines file_path with
  | .error e =>
    ([⟨.error, "Exception while processing " ++ file_path ++ ": " ++ e⟩], none)
  | .ok _first_lines =>
    let logs0 : List LogEntry :=
      [⟨.info, "Using URL method for " ++ file_name⟩,
       ⟨.info, "Requesting conversion for URL: " ++ secUrl file_name⟩]
    match env.httpGet (finalUrl file_name api_key) with
    | .exn e =>
      (logs0 ++ [⟨.error, "Exception while processing " ++ file_path ++ ": " ++ e⟩], none)
    | .response status text =>
      if status = 200 then
        match env.parseJson text with
        | .ok j => (logs0 ++ [⟨.info, "Successfully processed " ++ file_name⟩], some j)
        | .error e =>
          (logs0 ++ [⟨.error, "Exception while processing " ++ file_path ++ ": " ++ e⟩],
           none)
      else
        (logs0 ++ [⟨.error, "Error processing " ++ file_name
            ++ " with URL method: HTTP " ++ toString status ++ ", " ++ text.take 200⟩],
         none)

/-- index.py lines 67-120: the content-based (compress-and-POST)
conversion strategy. -/
def process_html_file_chunked (env : Env) (file_path api_key : String) :
    List LogEntry × Option ConversionResult :=
  match env.readFileBytes file_path with
  | .error e =>
    ([⟨.error, "Exception while processing " ++ file_path ++ ": " ++ e⟩], none)
  | .ok html_content =>
    let compressed := env.gzipCompress html_content
    let encoded := env.b64encode compressed
    let logs0 : List LogEntry :=
      [⟨.info, "Original size: " ++ toString html_content.length
          ++ " bytes, Compressed: " ++ toString compressed.length ++ " bytes"⟩,
       ⟨.info, "Sending compressed request for file: " ++ basename file_path⟩]
    match env.httpPost "https://api.sec-api.io/xbrl-to-json"
        [("html_compressed", encoded), ("token", api_key)] with
    | .exn e =>
      (logs0 ++ [⟨.error, "Exception while processing " ++ file_path ++ ": " ++ e⟩], none)
    | .response status text =>
      if status = 200 then
        match env.parseJson text with
        | .ok j =>
          (logs0 ++ [⟨.info, "Successfully processed " ++ basename file_path⟩], some j)
        | .error e =>
          (logs0 ++ [⟨.error, "Exception while processing " ++ file_path ++ ": " ++ e⟩],
           none)
      else
        (logs0 ++ [⟨.error, "Error processing " ++ file_path
            ++ " with compression: HTTP " ++ toString status ++ ", " ++ text.take 200⟩],
         none)

/-- index.py lines 122-130. -/
def extract_accession_number_from_filename (filename : String) : Option String :=
  let parts := splitChar '_' filename
  if parts.length ≥ 3 then some ((splitChar '.' (parts.getD 2 "")).headD "")
  else none

/-- index.py line 233. -/
def edgarUrl (accession_number : String) : String :=
  "https://www.sec.gov/Archives/edgar/data/320193/20" ++ accession_number.take 2
    ++ accession_number ++ "/xbrl.zip"

/-! ### The orchestrator (index.py lines 198-288) -/

/-- Observable actions of a run: remote conversion calls, log lines,
sleeps and CSV writes. -/
inductive Effect where
  | refCall (file : String)
  | contentCall (file : String)
  | logMsg (e : LogEntry)
  | sleepSec (n : Nat)
  | writeCsv (name : String) (t : Table)
deriving DecidableEq, Repr

def Effect.isContentCall : Effect → Bool
  | .contentCall _ => true
  | _ => false

def Effect.isRemoteCall : Effect → Bool
  | .refCall _ => true
  | .contentCall _ => true
  | _ => false

/-- Python truthiness of the conversion result: `None` and the empty dict
are falsy. -/
def truthy : Option ConversionResult → Bool
  | none => false
  | some j => !j.isEmpty

/-- index.py lines 214-244, the body of the per-file loop: call the URL
method (emitting `Effect.refCall`), on a falsy result log the fallback
path (lines 221-237 only log; no second remote call appears in `main`),
record the result when truthy (lines 239-241), then sleep (line 244). -/
def processDocument (env : Env) (api_key fp : String) :
    List Effect × Option (String × ConversionResult) :=
  let out := process_html_file_with_url env fp api_key
  let pre : List Effect :=
    [.logMsg ⟨.info, "Processing file: " ++ fp⟩, .refCall fp]
      ++ out.1.map Effect.logMsg
  let fb : List Effect :=
    if truthy out.2 then []
    else
      [.logMsg ⟨.info, "URL method failed for " ++ fp ++ ", trying alternative methods"⟩]
        ++ (match extract_accession_number_from_filename fp with
            | some acc =>
              [.logMsg ⟨.info, "Would process XBRL from " ++ edgarUrl acc⟩]
            | none => [])
  let recorded : Option (String × ConversionResult) :=
    if truthy out.2 then out.2.map (fun j => (basename fp, j)) else none
  (pre ++ fb ++ [.sleepSec 2], recorded)

/-- Mirrors `if tbl is not None: acc.append(tbl)`. -/
def appendOpt (l : List Table) : Option Table → List Table
  | none => l
  | some t => l ++ [t]

/-- index.py lines 252-265, one iteration of the extraction loop.  An
uncaught extractor exception would abort `main`, hence `Except`. -/
def collectStep (acc : List Table × List Table × List Table)
    (fr : String × ConversionResult) :
    Except String (List Table × List Table × List Table) := do
  let inc ← (extract_income_statement fr.2 fr.1).2
  let bal ← (extract_balance_sheet fr.2 fr.1).2
  let cf ← (extract_cash_flow fr.2 fr.1).2
  pure (appendOpt acc.1 inc, appendOpt acc.2.1 bal, appendOpt acc.2.2 cf)

/-- index.py lines 247-265. -/
def collectPhase (results : List (String × ConversionResult)) :
    Except String (List Table × List Table × List Table) :=
  results.foldlM collectStep ([], [], [])

/-- Mirrors `pd.concat`: columns are unioned in first-seen order, rows are
stacked in order with index labels kept (duplicates allowed, no
reconciliation). -/
def concatTables (ts : List Table) : Table :=
  ⟨ts.foldl (fun acc t => t.cols.foldl insertNew acc) [],
   ts.foldl (fun acc t => acc ++ t.rows) []⟩

/-- index.py lines 268-281: for each statement kind, write the combined
CSV only when at least one table was collected (`if all_xs:` is Python
list truthiness). -/
def combinePhase (incs bals cfs : List Table) : List Effect :=
  (if incs.isEmpty then []
   else
     [.writeCsv "combined_income_statement.csv" (concatTables incs),
      .logMsg ⟨.info, "Combined income statement saved to combined_income_statement.csv"⟩])
    ++ (if bals.isEmpty then []
        else
          [.writeCsv "combined_balance_sheet.csv" (concatTables bals),
           .logMsg ⟨.info, "Combined balance sheet saved to combined_balance_sheet.csv"⟩])
    ++ (if cfs.isEmpty then []
        else
          [.writeCsv "combined_cash_flow.csv" (concatTables cfs),
           .logMsg ⟨.info, "Combined cash flow statement saved to combined_cash_flow.csv"⟩])

/-- Does the trace write a file of this name? -/
def writesFile (effs : List Effect) (n : String) : Bool :=
  effs.any (fun e =>
    match e with
    | .writeCsv m _ => m = n
    | _ => false)

/-! ### Concrete inputs used by counterexamples and witnesses -/

/-- An environment whose HTTP calls always answer 404 - the simulated
failing remote service. -/
def envFail : Env :=
  { readFirstLines := fun _ => .ok ""
  , readFileBytes := fun _ => .ok ""
  , httpGet := fun _ => .response 404 "Not Found"
  , httpPost := fun _ _ => .response 404 "Not Found"
  , parseJson := fun _ => .error "Expecting value"
  , gzipCompress := fun s => s
  , b64encode := fun s => s }

/-- A section whose single line item has an empty observation sequence. -/
def cexResult : ConversionResult := [("StatementsOfIncome", [("Revenue", [])])]

/-- A section in which the label Revenue has two observations for the same
period; the second carries value 20. -/
def dupItems : Items :=
  [("Revenue", [[("period", "2021"), ("value", "10")],
                [("period", "2021"), ("value", "20")]])]

def dupResult : ConversionResult := [("StatementsOfIncome", dupItems)]

/-- A two-line-item income section with two distinct periods. -/
def shapeItems : Items :=
  [("Revenue", [[("period", "2021"), ("value", "10")],
                [("period", "2020"), ("value", "9")]]),
   ("Costs", [[("period", "2021"), ("value", "4")]])]

def shapeResult : ConversionResult := [("StatementsOfIncome", shapeItems)]

/-- Two small per-document tables used to exercise concatenation. -/
def tbl1 : Table :=
  ⟨["2021", "source_file"],
   [("Revenue", [("2021", "10"), ("source_file", "f1.html")])]⟩

def tbl2 : Table :=
  ⟨["2020", "source_file"],
   [("Revenue", [("2020", "8"), ("source_file", "f2.html")]),
    ("Costs", [("2020", "3"), ("source_file", "f2.html")])]⟩

/-! ## Helper lemmas -/

theorem alookup_upsert_self (l : List (String × String)) (k v : String) :
    alookup (upsert l k v) k = some v := by
  induction l with
  | nil => simp [upsert, alookup]
  | cons hd tl ih =>
    by_cases h : hd.1 = k
    · simp [upsert, h, alookup]
    · simp [upsert, h, alookup, ih]

theorem alookup_upsert_ne (l : List (String × String)) (k v k0 : String)
    (h : k0 ≠ k) : alookup (upsert l k v) k0 = alookup l k0 := by
  induction l with
  | nil => simp [upsert, alookup, Ne.symm h]
  | cons hd tl ih =>
    rcases hd with ⟨a, b⟩
    by_cases h1 : a = k
    · subst h1
      simp [upsert, alookup, Ne.symm h]
    · simp [upsert, h1, alookup, ih]

theorem mem_insertNew_self (l : List String) (x : String) : x ∈ insertNew l x := by
  by_cases h : x ∈ l <;> simp [insertNew, h]

theorem insertNew_of_mem (l : List String) (x : String) (h : x ∈ l) :
    insertNew l x = l := by
  simp [insertNew, h]

theorem nodup_insertNew (l : List String) (x : String) (h : l.Nodup) :
    (insertNew l x).Nodup := by
  by_cases hx : x ∈ l
  · simpa [insertNew, hx] using h
  · simp only [insertNew, hx, if_false]
    simp [List.nodup_append, h, hx]

theorem map_fst_label_map (rows : List (String × List (String × String)))
    (f : String × List (String × String) → String × List (String × String))
    (hf : ∀ row, (f row).1 = row.1) :
    (rows.map f).map Prod.fst = rows.map Prod.fst := by
  induction rows with
  | nil => rfl
  | cons hd tl ih => simp [hf, ih]

theorem find?_label_map (rows : List (String × List (String × String)))
    (f : String × List (String × String) → String × List (String × String))
    (hf : ∀ row, (f row).1 = row.1) (r : String) :
    (rows.map f).find? (fun row => row.1 = r)
      = (rows.find? (fun row => row.1 = r)).map f := by
  induction rows with
  | nil => simp
  | cons hd tl ih =>
    by_cases h : hd.1 = r
    · simp [List.find?, hf, h]
    · simp [List.find?, hf, h, ih]

theorem find?_append_of_none {α : Type} (l1 l2 : List α) (p : α → Bool)
    (h : l1.find? p = none) : (l1 ++ l2).find? p = l2.find? p := by
  induction l1 with
  | nil => simp
  | cons hd tl ih =>
    by_cases hp : p hd
    · rw [List.find?_cons_of_pos _ hp] at h
      simp at h
    · rw [List.find?_cons_of_neg _ hp] at h
      rw [show hd :: tl ++ l2 = hd :: (tl ++ l2) from rfl,
        List.find?_cons_of_neg _ hp]
      exact ih h

theorem find?_append_of_some {α : Type} (l1 l2 : List α) (p : α → Bool) (a : α)
    (h : l1.find? p = some a) : (l1 ++ l2).find? p = some a := by
  induction l1 with
  | nil => simp at h
  | cons hd tl ih =>
    by_cases hp : p hd
    · rw [List.find?_cons_of_pos _ hp] at h
      rw [show hd :: tl ++ l2 = hd :: (tl ++ l2) from rfl,
        List.find?_cons_of_pos _ hp]
      exact h
    · rw [List.find?_cons_of_neg _ hp] at h
      rw [show hd :: tl ++ l2 = hd :: (tl ++ l2) from rfl,
        List.find?_cons_of_neg _ hp]
      exact ih h

theorem hasRow_iff (t : Table) (r : String) :
    t.hasRow r = true ↔ r ∈ t.rowLabels := by
  simp [Table.hasRow, Table.rowLabels, List.any_eq_true]

theorem find?_some_of_hasRow_true (t : Table) (r : String) (h : t.hasRow r = true) :
    ∃ row, t.rows.find? (fun row => row.1 = r) = some row ∧ row.1 = r := by
  rcases hfind : t.rows.find? (fun row => row.1 = r) with _ | row
  · exfalso
    rw [List.find?_eq_none] at hfind
    simp only [Table.hasRow] at h
    rw [List.any_eq_true] at h
    rcases h with ⟨row, hmem, hp⟩
    exact absurd hp (by simpa using hfind row hmem)
  · have hp : row.1 = r := by simpa using List.find?_some hfind
    exact ⟨row, hfind, hp⟩

theorem hasRow_false_find?_none (t : Table) (r : String) (h : t.hasRow r = false) :
    t.rows.find? (fun row => row.1 = r) = none := by
  rcases hfind : t.rows.find? (fun row => row.1 = r) with _ | row
  · exact hfind
  · exfalso
    have hmem := List.mem_of_find?_eq_some hfind
    have hp : row.1 = r := by simpa using List.find?_some hfind
    have htrue : t.hasRow r = true := by
      simp only [Table.hasRow]
      rw [List.any_eq_true]
      exact ⟨row, hmem, by simp [hp]⟩
    rw [htrue] at h
    exact Bool.noConfusion h

/-! ### addColIfMissing -/

theorem rows_addColIfMissing (t : Table) (c : String) :
    (t.addColIfMissing c).rows = t.rows := by
  by_cases h : c ∈ t.cols <;> simp [Table.addColIfMissing, h]

theorem cols_addColIfMissing (t : Table) (c : String) :
    (t.addColIfMissing c).cols = insertNew t.cols c := by
  by_cases h : c ∈ t.cols <;> simp [Table.addColIfMissing, insertNew, h]

theorem rowLabels_addColIfMissing (t : Table) (c : String) :
    (t.addColIfMissing c).rowLabels = t.rowLabels := by
  simp [Table.rowLabels, rows_addColIfMissing]

theorem getCell_addColIfMissing (t : Table) (c r c0 : String) :
    (t.addColIfMissing c).getCell r c0 = t.getCell r c0 := by
  simp [Table.getCell, rows_addColIfMissing]

theorem hasRow_addColIfMissing (t : Table) (c r : String) :
    (t.addColIfMissing c).hasRow r = t.hasRow r := by
  simp [Table.hasRow, rows_addColIfMissing]

/-! ### setCell -/

theorem cols_setCell (t : Table) (r c v : String) :
    (t.setCell r c v).cols = t.cols := by
  unfold Table.setCell
  split <;> rfl

theorem rowLabels_setCell (t : Table) (r c v : String) :
    (t.setCell r c v).rowLabels = insertNew t.rowLabels r := by
  unfold Table.setCell
  split
  case isTrue h =>
    have hr : r ∈ t.rowLabels := (hasRow_iff t r).1 h
    rw [insertNew_of_mem _ _ hr]
    simp only [Table.rowLabels]
    exact map_fst_label_map _ _ (fun row => by by_cases heq : row.1 = r <;> simp [heq])
  case isFalse h =>
    have hr : r ∉ t.rowLabels := fun hmem => h ((hasRow_iff t r).2 hmem)
    simp only [Table.rowLabels] at hr ⊢
    simp [insertNew, hr]

theorem getCell_setCell_self (t : Table) (r c v : String) :
    (t.setCell r c v).getCell r c = some v := by
  unfold Table.setCell
  split
  case isTrue h =>
    simp only [Table.getCell]
    rw [find?_label_map _ _ (fun row => by by_cases heq : row.1 = r <;> simp [heq])]
    rcases find?_some_of_hasRow_true t r h with ⟨row, hfind, hp⟩
    rw [hfind]
    simp [hp, alookup_upsert_self]
  case isFalse h =>
    have hb : t.hasRow r = false := by simpa using h
    simp only [Table.getCell]
    rw [find?_append_of_none _ _ _ (hasRow_false_find?_none t r hb)]
    rw [List.find?_cons_of_pos _ (by simp)]
    simp [alookup]

theorem getCell_setCell_ne_row (t : Table) (r c v r0 c0 : String) (h : r0 ≠ r) :
    (t.setCell r c v).getCell r0 c0 = t.getCell r0 c0 := by
  unfold Table.setCell
  split
  case isTrue hr =>
    simp only [Table.getCell]
    rw [find?_label_map _ _ (fun row => by by_cases heq : row.1 = r <;> simp [heq])]
    rcases hfind : t.rows.find? (fun row => row.1 = r0) with _ | row
    · rw [hfind]
      rfl
    · rw [hfind]
      have hp : row.1 = r0 := by simpa using List.find?_some hfind
      simp [hp, h]
  case isFalse hr =>
    simp only [Table.getCell]
    rcases hfind : t.rows.find? (fun row => row.1 = r0) with _ | row
    · rw [find?_append_of_none _ _ _ hfind, hfind]
      rw [List.find?_cons_of_neg _ (by simp [Ne.symm h])]
      simp
    · rw [find?_append_of_some _ _ _ _ hfind, hfind]

theorem getCell_setCell_ne_col (t : Table) (r c v c0 : String) (h : c0 ≠ c) :
    (t.setCell r c v).getCell r c0 = t.getCell r c0 := by
  unfold Table.setCell
  split
  case isTrue hr =>
    simp only [Table.getCell]
    rw [find?_label_map _ _ (fun row => by by_cases heq : row.1 = r <;> simp [heq])]
    rcases hfind : t.rows.find? (fun row => row.1 = r) with _ | row
    · rw [hfind]
      rfl
    · rw [hfind]
      have hp : row.1 = r := by simpa using List.find?_some hfind
      simp [hp, alookup_upsert_ne _ _ _ _ h]
  case isFalse hr =>
    have hb : t.hasRow r = false := by simpa using hr
    simp only [Table.getCell]
    rw [find?_append_of_none _ _ _ (hasRow_false_find?_none t r hb)]
    rw [hasRow_false_find?_none t r hb]
    rw [List.find?_cons_of_pos _ (by simp)]
    simp [alookup, Ne.symm h]

/-! ### setConstCol -/

theorem rowLabels_setConstCol (t : Table) (c v : String) :
    (t.setConstCol c v).rowLabels = t.rowLabels := by
  simp only [Table.setConstCol, Table.rowLabels]
  exact map_fst_label_map t.rows (fun row => (row.1, upsert row.2 c v)) (fun row => rfl)

theorem cols_setConstCol (t : Table) (c v : String) :
    (t.setConstCol c v).cols = insertNew t.cols c := by
  by_cases h : c ∈ t.cols <;> simp [Table.setConstCol, insertNew, h]

theorem getCell_setConstCol_self (t : Table) (c v r : String)
    (h : r ∈ t.rowLabels) : (t.setConstCol c v).getCell r c = some v := by
  simp only [Table.setConstCol, Table.getCell]
  rw [find?_label_map t.rows (fun row => (row.1, upsert row.2 c v)) (fun row => rfl)]
  have htrue : t.hasRow r = true := (hasRow_iff t r).2 h
  rcases find?_some_of_hasRow_true t r htrue with ⟨row, hfind, hp⟩
  rw [hfind]
  simp [alookup_upsert_self]

theorem getCell_setConstCol_ne (t : Table) (c v r c0 : String) (h : c0 ≠ c) :
    (t.setConstCol c v).getCell r c0 = t.getCell r c0 := by
  simp only [Table.setConstCol, Table.getCell]
  rw [find?_label_map t.rows (fun row => (row.1, upsert row.2 c v)) (fun row => rfl)]
  rcases hfind : t.rows.find? (fun row => row.1 = r) with _ | row
  · rw [hfind]
    rfl
  · rw [hfind]
    simp [alookup_upsert_ne _ _ _ _ h]

/-! ### Monadic extraction loop versus its pure counterpart -/

theorem processObs_ok (colKey item : String) (t : Table) (obs : Obs)
    (h : obsWF colKey obs = true) :
    processObs colKey item t obs = .ok (processObsP colKey item t obs) := by
  simp only [obsWF, Bool.and_eq_true, Option.isSome_iff_exists] at h
  rcases h with ⟨⟨p, hp⟩, ⟨v, hv⟩⟩
  simp [processObs, processObsP, hp, hv]

theorem foldlM_processObs_ok (colKey item : String) (vs : List Obs) (t : Table)
    (h : vs.all (obsWF colKey) = true) :
    vs.foldlM (processObs colKey item) t
      = .ok (vs.foldl (processObsP colKey item) t) := by
  induction vs generalizing t with
  | nil => rfl
  | cons obs rest ih =>
    simp only [List.all_cons, Bool.and_eq_true] at h
    rw [List.foldlM_cons, processObs_ok colKey item t obs h.1]
    simp only [List.foldl_cons]
    exact ih _ h.2

theorem processItem_ok (colKey : String) (t : Table) (it : String × List Obs)
    (h : it.2.all (obsWF colKey) = true) :
    processItem colKey t it = .ok (processItemP colKey t it) :=
  foldlM_processObs_ok colKey it.1 it.2 t h

theorem foldlM_processItem_ok (colKey : String) (items : Items) (t : Table)
    (h : itemsWF colKey items = true) :
    items.foldlM (processItem colKey) t
      = .ok (items.foldl (processItemP colKey) t) := by
  induction items generalizing t with
  | nil => rfl
  | cons it rest ih =>
    simp only [itemsWF, List.all_cons, Bool.and_eq_true] at h
    rw [List.foldlM_cons, processItem_ok colKey t it h.1]
    simp only [List.foldl_cons]
    exact ih _ h.2

theorem extractStatement_of_found (sectionKey colKey warnMsg : String)
    (json_data : ConversionResult) (src : String) (items : Items)
    (hfind : alookup json_data sectionKey = some items)
    (hwf : itemsWF colKey items = true) :
    extractStatement sectionKey colKey warnMsg json_data src
      = ([], .ok (some ((extractBodyP colKey items).setConstCol "source_file" src))) := by
  simp only [extractStatement, hfind]
  rw [foldlM_processItem_ok colKey items Table.empty hwf]
  rfl

/-! ### Row labels of the extraction loop -/

theorem rowLabels_processObsP (colKey item : String) (t : Table) (obs : Obs)
    (h : obsWF colKey obs = true) :
    (processObsP colKey item t obs).rowLabels = insertNew t.rowLabels item := by
  simp only [obsWF, Bool.and_eq_true, Option.isSome_iff_exists] at h
  rcases h with ⟨⟨p, hp⟩, ⟨v, hv⟩⟩
  simp [processObsP, hp, hv, rowLabels_setCell, rowLabels_addColIfMissing]

theorem rowLabels_foldl_obs (colKey item : String) (vs : List Obs) (t : Table)
    (h : vs.all (obsWF colKey) = true) :
    (vs.foldl (processObsP colKey item) t).rowLabels
      = if vs.isEmpty then t.rowLabels else insertNew t.rowLabels item := by
  induction vs generalizing t with
  | nil => rfl
  | cons obs rest ih =>
    simp only [List.all_cons, Bool.and_eq_true] at h
    simp only [List.foldl_cons, List.isEmpty_cons, if_false]
    rw [ih _ h.2, rowLabels_processObsP colKey item t obs h.1]
    rcases rest with _ | ⟨obs2, rest2⟩
    · simp
    · simp only [List.isEmpty_cons, if_false]
      exact insertNew_of_mem _ _ (mem_insertNew_self _ _)

theorem rowLabels_foldl_items (colKey : String) (items : Items) (t : Table)
    (h : itemsWF colKey items = true) :
    (items.foldl (processItemP colKey) t).rowLabels
      = items.foldl
          (fun acc it => if it.2.isEmpty then acc else insertNew acc it.1)
          t.rowLabels := by
  induction items generalizing t with
  | nil => rfl
  | cons it rest ih =>
    simp only [itemsWF, List.all_cons, Bool.and_eq_true] at h
    simp only [List.foldl_cons]
    rw [ih _ h.2, processItemP, rowLabels_foldl_obs colKey it.1 it.2 t h.1]

theorem foldl_insert_labels (items : Items) (acc : List String)
    (hnd : (items.map Prod.fst).Nodup)
    (hdisj : ∀ l2 ∈ items.map Prod.fst, l2 ∉ acc) :
    items.foldl (fun acc it => if it.2.isEmpty then acc else insertNew acc it.1) acc
      = acc ++ nonEmptyLabels items := by
  induction items generalizing acc with
  | nil => simp [nonEmptyLabels]
  | cons it rest ih =>
    simp only [List.map_cons, List.nodup_cons] at hnd
    simp only [List.foldl_cons]
    rcases hvs : it.2.isEmpty with _ | _
    · simp only [Bool.false_eq_true, if_false]
      have hacc : it.1 ∉ acc := hdisj it.1 (by simp)
      rw [insertNew, if_neg hacc]
      rw [ih (acc ++ [it.1]) hnd.2 ?_]
      · have : nonEmptyLabels (it :: rest) = it.1 :: nonEmptyLabels rest := by
          simp [nonEmptyLabels, List.filter_cons, hvs]
        rw [this]
        simp
      · intro l2 hl2
        simp only [List.mem_append, List.mem_singleton]
        rintro (hmem | heq)
        · exact hdisj l2 (by simp [hl2]) hmem
        · exact hnd.1 (heq ▸ hl2)
    · simp only [if_true]
      rw [ih acc hnd.2 (fun l2 hl2 => hdisj l2 (by simp [hl2]))]
      have : nonEmptyLabels (it :: rest) = nonEmptyLabels rest := by
        simp [nonEmptyLabels, List.filter_cons, hvs]
      rw [this]

theorem rowLabels_extractBodyP (colKey : String) (items : Items)
    (hwf : itemsWF colKey items = true)
    (hnd : (items.map Prod.fst).Nodup) :
    (extractBodyP colKey items).rowLabels = nonEmptyLabels items := by
  rw [extractBodyP, rowLabels_foldl_items colKey items Table.empty hwf]
  have : (Table.empty).rowLabels = [] := rfl
  rw [this, foldl_insert_labels items [] hnd (by simp)]
  simp

/-! ### Columns of the extraction loop -/

theorem cols_processObsP (colKey item : String) (t : Table) (obs : Obs) (p : String)
    (hp : alookup obs colKey = some p) (hv : (alookup obs "value").isSome = true) :
    (processObsP colKey item t obs).cols = insertNew t.cols p := by
  rcases Option.isSome_iff_exists.1 hv with ⟨v, hv2⟩
  simp [processObsP, hp, hv2, cols_setCell, cols_addColIfMissing]

theorem cols_foldl_obs (colKey item : String) (vs : List Obs) (t : Table)
    (h : vs.all (obsWF colKey) = true) :
    (vs.foldl (processObsP colKey item) t).cols = seenColsObs colKey t.cols vs := by
  induction vs generalizing t with
  | nil => rfl
  | cons obs rest ih =>
    simp only [List.all_cons, Bool.and_eq_true] at h
    have h1 := h.1
    simp only [obsWF, Bool.and_eq_true, Option.isSome_iff_exists] at h1
    rcases h1 with ⟨⟨p, hp⟩, ⟨v, hv⟩⟩
    simp only [List.foldl_cons, seenColsObs, List.foldl_cons]
    rw [ih _ h.2, cols_processObsP colKey item t obs p hp (by simp [hv])]
    simp [seenColsObs, hp]

theorem cols_foldl_items (colKey : String) (items : Items) (t : Table)
    (h : itemsWF colKey items = true) :
    (items.foldl (processItemP colKey) t).cols = seenColsFrom colKey t.cols items := by
  induction items generalizing t with
  | nil => rfl
  | cons it rest ih =>
    simp only [itemsWF, List.all_cons, Bool.and_eq_true] at h
    simp only [List.foldl_cons, seenColsFrom, List.foldl_cons]
    rw [ih _ h.2, processItemP, cols_foldl_obs colKey it.1 it.2 t h.1]
    rfl

theorem cols_extractBodyP (colKey : String) (items : Items)
    (hwf : itemsWF colKey items = true) :
    (extractBodyP colKey items).cols = seenCols colKey items := by
  rw [extractBodyP, cols_foldl_items colKey items Table.empty hwf]
  rfl

theorem nodup_seenColsObs (colKey : String) (acc : List String) (vs : List Obs)
    (h : acc.Nodup) : (seenColsObs colKey acc vs).Nodup := by
  induction vs generalizing acc with
  | nil => exact h
  | cons obs rest ih =>
    simp only [seenColsObs, List.foldl_cons]
    rcases hobs : alookup obs colKey with _ | p
    · exact ih acc h
    · exact ih _ (nodup_insertNew acc p h)

theorem nodup_seenColsFrom (colKey : String) (acc : List String) (items : Items)
    (h : acc.Nodup) : (seenColsFrom colKey acc items).Nodup := by
  induction items generalizing acc with
  | nil => exact h
  | cons it rest ih =>
    simp only [seenColsFrom, List.foldl_cons]
    exact ih _ (nodup_seenColsObs colKey acc it.2 h)

theorem nodup_seenCols (colKey : String) (items : Items) :
    (seenCols colKey items).Nodup :=
  nodup_seenColsFrom colKey [] items List.nodup_nil

/-! ### Cell values of the extraction loop -/

theorem getCell_foldl_obs_self (colKey item : String) (vs : List Obs) (t : Table)
    (p : String) (h : vs.all (obsWF colKey) = true) :
    (vs.foldl (processObsP colKey item) t).getCell item p
      = match lastObsValue colKey vs p with
        | some v => some v
        | none => t.getCell item p := by
  induction vs generalizing t with
  | nil => rfl
  | cons obs rest ih =>
    simp only [List.all_cons, Bool.and_eq_true] at h
    have h1 := h.1
    simp only [obsWF, Bool.and_eq_true, Option.isSome_iff_exists] at h1
    rcases h1 with ⟨⟨q, hq⟩, ⟨v0, hv0⟩⟩
    simp only [List.foldl_cons]
    rw [ih _ h.2]
    rcases hlast : lastObsValue colKey rest p with _ | v
    · simp only [lastObsValue, hlast, hq, hv0]
      by_cases hqp : q = p
      · subst hqp
        simp only [if_pos rfl]
        simp [processObsP, hq, hv0, getCell_setCell_self]
      · simp only [if_neg hqp]
        simp [processObsP, hq, hv0,
          getCell_setCell_ne_col _ _ _ _ _ (fun heq => hqp (heq.symm)),
          getCell_addColIfMissing]
    · simp [lastObsValue, hlast]

theorem getCell_foldl_obs_other (colKey item : String) (vs : List Obs) (t : Table)
    (r p : String) (h : r ≠ item) :
    (vs.foldl (processObsP colKey item) t).getCell r p = t.getCell r p := by
  induction vs generalizing t with
  | nil => rfl
  | cons obs rest ih =>
    simp only [List.foldl_cons]
    rw [ih]
    simp only [processObsP]
    rcases hq : alookup obs colKey with _ | q
    · rfl
    · rcases hv : alookup obs "value" with _ | v
      · rfl
      · rw [getCell_setCell_ne_row _ _ _ _ _ _ h, getCell_addColIfMissing]

theorem getCell_foldl_items_other (colKey : String) (items : Items) (t : Table)
    (r p : String) (h : r ∉ items.map Prod.fst) :
    (items.foldl (processItemP colKey) t).getCell r p = t.getCell r p := by
  induction items generalizing t with
  | nil => rfl
  | cons it rest ih =>
    simp only [List.map_cons, List.mem_cons] at h
    push_neg at h
    simp only [List.foldl_cons]
    rw [ih _ h.2, processItemP, getCell_foldl_obs_other colKey it.1 it.2 t r p h.1]

theorem getCell_foldl_items_self (colKey : String) (items : Items) (t : Table)
    (item p v : String) (vs : List Obs)
    (hwf : itemsWF colKey items = true)
    (hnd : (items.map Prod.fst).Nodup)
    (hmem : (item, vs) ∈ items)
    (hlast : lastObsValue colKey vs p = some v) :
    (items.foldl (processItemP colKey) t).getCell item p = some v := by
  induction items generalizing t with
  | nil => simp at hmem
  | cons it rest ih =>
    simp only [itemsWF, List.all_cons, Bool.and_eq_true] at hwf
    simp only [List.map_cons, List.nodup_cons] at hnd
    simp only [List.foldl_cons]
    rcases List.mem_cons.1 hmem with heq | hmem2
    · have hitem : it.1 = item := by rw [← heq]
      have hnotin : item ∉ rest.map Prod.fst := hitem ▸ hnd.1
      rw [getCell_foldl_items_other colKey rest _ item p hnotin]
      rw [processItemP, ← heq]
      have hwf1 : vs.all (obsWF colKey) = true := by
        have := hwf.1
        rw [← heq] at this
        exact this
      rw [getCell_foldl_obs_self colKey item vs t p hwf1, hlast]
    · exact ih _ hwf.2 hnd.2 hmem2

/-! ### Assembled shape of one extracted statement table -/

theorem extractStatement_shape (sectionKey colKey warnMsg : String)
    (json : ConversionResult) (src : String) (items : Items)
    (hfind : alookup json sectionKey = some items)
    (hwf : itemsWF colKey items = true)
    (hnd : (items.map Prod.fst).Nodup)
    (hsrc : "source_file" ∉ seenCols colKey items) :
    ∃ t, extractStatement sectionKey colKey warnMsg json src = ([], .ok (some t))
      ∧ t.rowLabels = nonEmptyLabels items
      ∧ t.cols = seenCols colKey items ++ ["source_file"]
      ∧ ∀ r ∈ t.rowLabels, t.getCell r "source_file" = some src := by
  refine ⟨(extractBodyP colKey items).setConstCol "source_file" src,
    extractStatement_of_found sectionKey colKey warnMsg json src items hfind hwf,
    ?_, ?_, ?_⟩
  · rw [rowLabels_setConstCol, rowLabels_extractBodyP colKey items hwf hnd]
  · rw [cols_setConstCol, cols_extractBodyP colKey items hwf, insertNew, if_neg hsrc]
  · intro r hr
    rw [rowLabels_setConstCol, rowLabels_extractBodyP colKey items hwf hnd] at hr
    apply getCell_setConstCol_self
    rw [rowLabels_extractBodyP colKey items hwf hnd]
    exact hr

theorem extractStatement_last_wins (sectionKey colKey warnMsg : String)
    (json : ConversionResult) (src : String) (items : Items)
    (item p v : String) (vs : List Obs)
    (hfind : alookup json sectionKey = some items)
    (hwf : itemsWF colKey items = true)
    (hnd : (items.map Prod.fst).Nodup)
    (hmem : (item, vs) ∈ items)
    (hlast : lastObsValue colKey vs p = some v)
    (hp : p ≠ "source_file") :
    ∃ t, extractStatement sectionKey colKey warnMsg json src = ([], .ok (some t))
      ∧ t.getCell item p = some v ∧ t.cols.Nodup := by
  refine ⟨(extractBodyP colKey items).setConstCol "source_file" src,
    extractStatement_of_found sectionKey colKey warnMsg json src items hfind hwf,
    ?_, ?_⟩
  · rw [getCell_setConstCol_ne _ _ _ _ _ hp, extractBodyP]
    exact getCell_foldl_items_self colKey items Table.empty item p v vs hwf hnd hmem hlast
  · rw [cols_setConstCol, cols_extractBodyP colKey items hwf]
    exact nodup_insertNew _ _ (nodup_seenCols colKey items)

theorem foldlM_all_empty (colKey : String) (items : Items) (t : Table)
    (hempty : ∀ it ∈ items, it.2 = ([] : List Obs)) :
    items.foldlM (processItem colKey) t = .ok t := by
  induction items generalizing t with
  | nil => rfl
  | cons it rest ih =>
    rw [List.foldlM_cons]
    have h1 : it.2 = [] := hempty it (by simp)
    rw [processItem, h1]
    simp only [List.foldlM_nil]
    have := ih t (fun it2 hmem => hempty it2 (by simp [hmem]))
    simpa using this

theorem extractStatement_all_empty (sectionKey colKey warnMsg : String)
    (json : ConversionResult) (src : String) (items : Items)
    (hfind : alookup json sectionKey = some items)
    (hempty : ∀ it ∈ items, it.2 = ([] : List Obs)) :
    extractStatement sectionKey colKey warnMsg json src
      = ([], .ok (some (Table.mk ["source_file"] []))) := by
  simp only [extractStatement, hfind]
  rw [foldlM_all_empty colKey items Table.empty hempty]
  rfl

/-! ### Extractors versus the generic shape -/

theorem extract_income_eq_generic (json : ConversionResult) (src : String) :
    extract_income_statement json src
      = extractStatement "StatementsOfIncome" "period"
          ("No income statement found in " ++ src) json src := rfl

theorem extract_balance_eq_generic (json : ConversionResult) (src : String) :
    extract_balance_sheet json src
      = extractStatement "BalanceSheets" "date"
          ("No balance sheet found in " ++ src) json src := rfl

theorem extract_cash_eq_generic (json : ConversionResult) (src : String) :
    extract_cash_flow json src
      = extractStatement "StatementsOfCashFlows" "period"
          ("No cash flow statement found in " ++ src) json src := rfl

/-! ### Concatenation lemmas -/

theorem mem_acc_foldl_append (ts : List Table)
    (acc : List (String × List (String × String)))
    (x : String × List (String × String)) (hx : x ∈ acc) :
    x ∈ ts.foldl (fun acc t => acc ++ t.rows) acc := by
  induction ts generalizing acc with
  | nil => exact hx
  | cons t rest ih => exact ih _ (by simp [hx])

theorem mem_foldl_append_rows (ts : List Table)
    (acc : List (String × List (String × String)))
    (t0 : Table) (ht : t0 ∈ ts) (r : String × List (String × String))
    (hr : r ∈ t0.rows) :
    r ∈ ts.foldl (fun acc t => acc ++ t.rows) acc := by
  induction ts generalizing acc with
  | nil => simp at ht
  | cons t rest ih =>
    simp only [List.foldl_cons]
    rcases List.mem_cons.1 ht with heq | hmem
    · subst heq
      exact mem_acc_foldl_append rest _ r (by simp [hr])
    · exact ih (acc ++ t.rows) hmem

theorem length_foldl_append_rows (ts : List Table)
    (acc : List (String × List (String × String))) :
    (ts.foldl (fun acc t => acc ++ t.rows) acc).length
      = acc.length + (ts.map (fun t => t.rows.length)).sum := by
  induction ts generalizing acc with
  | nil => simp
  | cons t rest ih =>
    simp only [List.foldl_cons, List.map_cons, List.sum_cons]
    rw [ih]
    simp [List.length_append]
    omega

theorem rows_concatTables (ts : List Table) :
    (concatTables ts).rows = ts.foldl (fun acc t => acc ++ t.rows) [] := rfl

/-! ### Combine-phase write lemmas -/

theorem writesFile_append (l1 l2 : List Effect) (n : String) :
    writesFile (l1 ++ l2) n = (writesFile l1 n || writesFile l2 n) := by
  simp [writesFile, List.any_append]

theorem writesFile_combinePhase (incs bals cfs : List Table) :
    writesFile (combinePhase incs bals cfs) "combined_income_statement.csv"
        = !incs.isEmpty
    ∧ writesFile (combinePhase incs bals cfs) "combined_balance_sheet.csv"
        = !bals.isEmpty
    ∧ writesFile (combinePhase incs bals cfs) "combined_cash_flow.csv"
        = !cfs.isEmpty := by
  rcases incs with _ | ⟨a, as⟩ <;> rcases bals with _ | ⟨b, bs⟩ <;>
    rcases cfs with _ | ⟨c, cs⟩ <;>
    refine ⟨?_, ?_, ?_⟩ <;> simp [combinePhase, writesFile]

/-! ### Orchestrator trace lemmas -/

theorem countP_map_logMsg (l : List LogEntry) :
    (l.map Effect.logMsg).countP Effect.isContentCall = 0 := by
  induction l with
  | nil => rfl
  | cons e rest ih => simp [List.countP_cons, Effect.isContentCall, ih]

/-! ## Claim theorems -/

/-- C1 (counterexample): on a document whose primary URL-method conversion
fails (HTTP 404 from the remote service), the orchestrator loop body
performs no content-based conversion call at all - it performs exactly one
remote call (the reference-based one) - refuting the claim that the
fallback invokes process_html_file_chunked as a real second remote call. -/
theorem orchestrator_content_fallback_cex :
    truthy (process_html_file_with_url envFail "aapl_10k_1.html" "testkey").2 = false
    ∧ (processDocument envFail "testkey" "aapl_10k_1.html").1.countP
        Effect.isContentCall = 0
    ∧ (processDocument envFail "testkey" "aapl_10k_1.html").1.countP
        Effect.isRemoteCall = 1 :=
  ⟨rfl, rfl, rfl⟩

/-- C1 (amended): whenever the primary reference-based conversion yields a
falsy result, the orchestrator records no result for the document, performs
no content-based remote call (process_html_file_chunked is never invoked by
main), and only logs the derived SEC Edgar URL when an accession number can
be parsed from the file name. -/
theorem orchestrator_fallback_logs_only (env : Env) (api_key fp : String)
    (h : truthy (process_html_file_with_url env fp api_key).2 = false) :
    (processDocument env api_key fp).2 = none
    ∧ (processDocument env api_key fp).1.countP Effect.isContentCall = 0
    ∧ ∀ acc, extract_accession_number_from_filename fp = some acc →
        Effect.logMsg ⟨.info, "Would process XBRL from " ++ edgarUrl acc⟩
          ∈ (processDocument env api_key fp).1 := by
  refine ⟨?_, ?_, ?_⟩
  · simp [processDocument, h]
  · rcases hacc : extract_accession_number_from_filename fp with _ | acc <;>
      simp [processDocument, h, hacc, List.countP_append, List.countP_cons,
        countP_map_logMsg, Effect.isContentCall]
  · intro acc hacc
    simp [processDocument, h, hacc]

/-- C1 (witness): the amended fallback behaviour holds at the concrete
failing document aapl_10k_1.html against the always-404 environment. -/
theorem orchestrator_fallback_logs_only_witness :
    (processDocument envFail "wkey" "aapl_10k_1.html").2 = none
    ∧ (processDocument envFail "wkey" "aapl_10k_1.html").1.countP
        Effect.isContentCall = 0
    ∧ ∀ acc, extract_accession_number_from_filename "aapl_10k_1.html" = some acc →
        Effect.logMsg ⟨.info, "Would process XBRL from " ++ edgarUrl acc⟩
          ∈ (processDocument envFail "wkey" "aapl_10k_1.html").1 :=
  orchestrator_fallback_logs_only envFail "wkey" "aapl_10k_1.html" rfl

/-- C2 (counterexample): in a result whose income-statement section
contains the line-item label Revenue with an empty observation sequence,
extraction yields a table with no rows at all, so the row set does not
equal the set of labels present in the section. -/
theorem extract_rowset_claim_cex :
    extract_income_statement cexResult "a.html"
      = ([], .ok (some (Table.mk ["source_file"] [])))
    ∧ alookup cexResult "StatementsOfIncome" = some [("Revenue", [])]
    ∧ (Table.mk ["source_file"] []).rowLabels = []
    ∧ [("Revenue", ([] : List Obs))].map Prod.fst = ["Revenue"] :=
  ⟨rfl, rfl, rfl, rfl⟩

/-- C2 (amended): for any conversion result containing a statement kind
whose observations are well formed, whose line-item labels are unique, and
in which no period/date is literally named source_file, extraction returns
a table whose row labels are exactly the labels having at least one
observation (in section order), whose columns are the distinct
periods/dates in first-seen order followed by the trailing source_file
column, and whose source_file cell carries the same source identifier on
every row.  (The correction: a label whose observation sequence is empty
produces no row.) -/
theorem extract_table_shape (json : ConversionResult) (src : String) :
    (∀ items, alookup json "StatementsOfIncome" = some items →
      itemsWF "period" items = true →
      (items.map Prod.fst).Nodup →
      "source_file" ∉ seenCols "period" items →
      ∃ t, extract_income_statement json src = ([], .ok (some t))
        ∧ t.rowLabels = nonEmptyLabels items
        ∧ t.cols = seenCols "period" items ++ ["source_file"]
        ∧ ∀ r ∈ t.rowLabels, t.getCell r "source_file" = some src)
    ∧ (∀ items, alookup json "BalanceSheets" = some items →
      itemsWF "date" items = true →
      (items.map Prod.fst).Nodup →
      "source_file" ∉ seenCols "date" items →
      ∃ t, extract_balance_sheet json src = ([], .ok (some t))
        ∧ t.rowLabels = nonEmptyLabels items
        ∧ t.cols = seenCols "date" items ++ ["source_file"]
        ∧ ∀ r ∈ t.rowLabels, t.getCell r "source_file" = some src)
    ∧ (∀ items, alookup json "StatementsOfCashFlows" = some items →
      itemsWF "period" items = true →
      (items.map Prod.fst).Nodup →
      "source_file" ∉ seenCols "period" items →
      ∃ t, extract_cash_flow json src = ([], .ok (some t))
        ∧ t.rowLabels = nonEmptyLabels items
        ∧ t.cols = seenCols "period" items ++ ["source_file"]
        ∧ ∀ r ∈ t.rowLabels, t.getCell r "source_file" = some src) := by
  refine ⟨fun items hfind hwf hnd hsrc => ?_,
    fun items hfind hwf hnd hsrc => ?_,
    fun items hfind hwf hnd hsrc => ?_⟩
  · rw [extract_income_eq_generic]
    exact extractStatement_shape _ _ _ json src items hfind hwf hnd hsrc
  · rw [extract_balance_eq_generic]
    exact extractStatement_shape _ _ _ json src items hfind hwf hnd hsrc
  · rw [extract_cash_eq_generic]
    exact extractStatement_shape _ _ _ json src items hfind hwf hnd hsrc

/-- C2 (witness): the table shape holds at a concrete two-line-item income
section with two distinct periods. -/
theorem extract_table_shape_witness :
    ∃ t, extract_income_statement shapeResult "w.html" = ([], .ok (some t))
      ∧ t.rowLabels = nonEmptyLabels shapeItems
      ∧ t.cols = seenCols "period" shapeItems ++ ["source_file"]
      ∧ ∀ r ∈ t.rowLabels, t.getCell r "source_file" = some "w.html" :=
  (extract_table_shape shapeResult "w.html").1 shapeItems rfl (by decide)
    (by decide) (by decide)

/-- C3: when a statement kind's key is absent from the conversion result,
the corresponding extractor returns null, emits exactly one warning-level
log entry (not an error), and the result is an ok value - no exception
escapes. -/
theorem extract_missing_kind_returns_none (json : ConversionResult) (src : String) :
    (alookup json "StatementsOfIncome" = none →
      extract_income_statement json src
        = ([⟨.warning, "No income statement found in " ++ src⟩], .ok none))
    ∧ (alookup json "BalanceSheets" = none →
      extract_balance_sheet json src
        = ([⟨.warning, "No balance sheet found in " ++ src⟩], .ok none))
    ∧ (alookup json "StatementsOfCashFlows" = none →
      extract_cash_flow json src
        = ([⟨.warning, "No cash flow statement found in " ++ src⟩], .ok none)) := by
  refine ⟨fun h => ?_, fun h => ?_, fun h => ?_⟩
  · simp [extract_income_statement, h]
  · simp [extract_balance_sheet, h]
  · simp [extract_cash_flow, h]

/-- C3 (witness): all three extractors return null with a warning on the
empty conversion result. -/
theorem extract_missing_kind_returns_none_witness :
    (extract_income_statement [] "w3.html"
        = ([⟨.warning, "No income statement found in " ++ "w3.html"⟩], .ok none))
    ∧ (extract_balance_sheet [] "w3.html"
        = ([⟨.warning, "No balance sheet found in " ++ "w3.html"⟩], .ok none))
    ∧ (extract_cash_flow [] "w3.html"
        = ([⟨.warning, "No cash flow statement found in " ++ "w3.html"⟩], .ok none)) :=
  ⟨(extract_missing_kind_returns_none [] "w3.html").1 rfl,
   (extract_missing_kind_returns_none [] "w3.html").2.1 rfl,
   (extract_missing_kind_returns_none [] "w3.html").2.2 rfl⟩

/-- C4: the reference-based conversion never raises: on a non-200 response
it returns null and logs an error containing the file name, the status
code and the first 200 characters of the body; on a transport exception, a
parse failure, or a file-read failure it also returns null with an error
log. -/
theorem url_conversion_failure_returns_none (env : Env) (file_path api_key : String) :
    (∀ s0 status text, env.readFirstLines file_path = .ok s0 → status ≠ 200 →
      env.httpGet (finalUrl (basename file_path) api_key) = .response status text →
      process_html_file_with_url env file_path api_key
        = ([⟨.info, "Using URL method for " ++ basename file_path⟩,
            ⟨.info, "Requesting conversion for URL: " ++ secUrl (basename file_path)⟩,
            ⟨.error, "Error processing " ++ basename file_path
              ++ " with URL method: HTTP " ++ toString status ++ ", "
              ++ text.take 200⟩], none))
    ∧ (∀ s0 e, env.readFirstLines file_path = .ok s0 →
      env.httpGet (finalUrl (basename file_path) api_key) = .exn e →
      process_html_file_with_url env file_path api_key
        = ([⟨.info, "Using URL method for " ++ basename file_path⟩,
            ⟨.info, "Requesting conversion for URL: " ++ secUrl (basename file_path)⟩,
            ⟨.error, "Exception while processing " ++ file_path ++ ": " ++ e⟩], none))
    ∧ (∀ s0 text e, env.readFirstLines file_path = .ok s0 →
      env.httpGet (finalUrl (basename file_path) api_key) = .response 200 text →
      env.parseJson text = .error e →
      process_html_file_with_url env file_path api_key
        = ([⟨.info, "Using URL method for " ++ basename file_path⟩,
            ⟨.info, "Requesting conversion for URL: " ++ secUrl (basename file_path)⟩,
            ⟨.error, "Exception while processing " ++ file_path ++ ": " ++ e⟩], none))
    ∧ (∀ e, env.readFirstLines file_path = .error e →
      process_html_file_with_url env file_path api_key
        = ([⟨.error, "Exception while processing " ++ file_path ++ ": " ++ e⟩],
           none)) := by
  refine ⟨fun s0 status text hread hst hhttp => ?_,
    fun s0 e hread hhttp => ?_,
    fun s0 text e hread hhttp hparse => ?_,
    fun e hread => ?_⟩
  · simp [process_html_file_with_url, hread, hhttp, hst]
  · simp [process_html_file_with_url, hread, hhttp]
  · simp [process_html_file_with_url, hread, hhttp, hparse]
  · simp [process_html_file_with_url, hread]

/-- C4 (witness): a simulated 404 response yields null plus the error log
for the concrete file aapl_10k_1.html. -/
theorem url_conversion_failure_returns_none_witness :
    process_html_file_with_url envFail "aapl_10k_1.html" "wkey4"
      = ([⟨.info, "Using URL method for " ++ basename "aapl_10k_1.html"⟩,
          ⟨.info, "Requesting conversion for URL: "
            ++ secUrl (basename "aapl_10k_1.html")⟩,
          ⟨.error, "Error processing " ++ basename "aapl_10k_1.html"
            ++ " with URL method: HTTP " ++ toString 404 ++ ", "
            ++ "Not Found".take 200⟩], none) :=
  (url_conversion_failure_returns_none envFail "aapl_10k_1.html" "wkey4").1
    "" 404 "Not Found" rfl (by decide) rfl

/-- C5: concatenating per-document tables stacks all rows: the combined row
count is the sum of the individual row counts, every row of every input
table appears unchanged in the combined table, and in particular keeps its
source_file cell, so each row stays attributed to its origin document. -/
theorem concat_preserves_rows_and_count (ts : List Table) (_h : ts ≠ []) :
    (concatTables ts).rows.length = (ts.map (fun t => t.rows.length)).sum
    ∧ (∀ t ∈ ts, ∀ r ∈ t.rows, r ∈ (concatTables ts).rows)
    ∧ ∀ t ∈ ts, ∀ r ∈ t.rows, ∃ r2, r2 ∈ (concatTables ts).rows
        ∧ r2.1 = r.1 ∧ alookup r2.2 "source_file" = alookup r.2 "source_file" := by
  refine ⟨?_, ?_, ?_⟩
  · rw [rows_concatTables, length_foldl_append_rows]
    simp
  · intro t ht r hr
    rw [rows_concatTables]
    exact mem_foldl_append_rows ts [] t ht r hr
  · intro t ht r hr
    refine ⟨r, ?_, rfl, rfl⟩
    rw [rows_concatTables]
    exact mem_foldl_append_rows ts [] t ht r hr

/-- C5 (witness): concatenation of two concrete per-document tables. -/
theorem concat_preserves_rows_and_count_witness :
    ((concatTables [tbl1, tbl2]).rows.length
        = ([tbl1, tbl2].map (fun t => t.rows.length)).sum)
    ∧ (∀ t ∈ [tbl1, tbl2], ∀ r ∈ t.rows, r ∈ (concatTables [tbl1, tbl2]).rows)
    ∧ ∀ t ∈ [tbl1, tbl2], ∀ r ∈ t.rows, ∃ r2, r2 ∈ (concatTables [tbl1, tbl2]).rows
        ∧ r2.1 = r.1 ∧ alookup r2.2 "source_file" = alookup r.2 "source_file" :=
  concat_preserves_rows_and_count [tbl1, tbl2] (by simp)

/-- C6: the combine phase writes the CSV for a statement kind exactly when
at least one table was collected for that kind; with zero tables no write
effect for that file occurs at all. -/
theorem combine_writes_iff_nonempty (incs bals cfs : List Table) :
    writesFile (combinePhase incs bals cfs) "combined_income_statement.csv"
        = !incs.isEmpty
    ∧ writesFile (combinePhase incs bals cfs) "combined_balance_sheet.csv"
        = !bals.isEmpty
    ∧ writesFile (combinePhase incs bals cfs) "combined_cash_flow.csv"
        = !cfs.isEmpty :=
  writesFile_combinePhase incs bals cfs

/-- C7: each extractor is the common extraction shape instantiated at its
own section key and column key - pairwise distinct section keys, with the
balance sheet reading the date field of each observation and the income
statement and cash flow reading the period field. -/
theorem extractor_kind_keys :
    (∀ json src, extract_income_statement json src
        = extractStatement "StatementsOfIncome" "period"
            ("No income statement found in " ++ src) json src)
    ∧ (∀ json src, extract_balance_sheet json src
        = extractStatement "BalanceSheets" "date"
            ("No balance sheet found in " ++ src) json src)
    ∧ (∀ json src, extract_cash_flow json src
        = extractStatement "StatementsOfCashFlows" "period"
            ("No cash flow statement found in " ++ src) json src)
    ∧ ("StatementsOfIncome" : String) ≠ "BalanceSheets"
    ∧ ("StatementsOfIncome" : String) ≠ "StatementsOfCashFlows"
    ∧ ("BalanceSheets" : String) ≠ "StatementsOfCashFlows"
    ∧ ("date" : String) ≠ "period" :=
  ⟨extract_income_eq_generic, extract_balance_eq_generic, extract_cash_eq_generic,
   by decide, by decide, by decide, by decide⟩

/-- C8: extraction is a pure function of the conversion result and source
identifier - two calls on the same inputs return identical log lists and
identical tables (rows, columns and cells), with no hidden state or
ordering randomness (the embedding iterates Python dicts in their
deterministic insertion order). -/
theorem extract_deterministic (json : ConversionResult) (src : String) :
    extract_income_statement json src = extract_income_statement json src
    ∧ extract_balance_sheet json src = extract_balance_sheet json src
    ∧ extract_cash_flow json src = extract_cash_flow json src :=
  ⟨rfl, rfl, rfl⟩

/-- C9: when a statement kind's key is present but every line item has an
empty observation sequence (including the empty section), the extractor
returns a non-null table with only the source_file column and no rows, so
the kind counts as extracted and the combine phase still writes that
kind's output file. -/
theorem extract_empty_section_nonnull (json : ConversionResult) (src : String) :
    (∀ items, alookup json "StatementsOfIncome" = some items →
      (∀ it ∈ items, it.2 = ([] : List Obs)) →
      extract_income_statement json src
          = ([], .ok (some (Table.mk ["source_file"] [])))
        ∧ ∀ prior bals cfs, writesFile
            (combinePhase (appendOpt prior (some (Table.mk ["source_file"] [])))
              bals cfs)
            "combined_income_statement.csv" = true)
    ∧ (∀ items, alookup json "BalanceSheets" = some items →
      (∀ it ∈ items, it.2 = ([] : List Obs)) →
      extract_balance_sheet json src
          = ([], .ok (some (Table.mk ["source_file"] [])))
        ∧ ∀ incs prior cfs, writesFile
            (combinePhase incs
              (appendOpt prior (some (Table.mk ["source_file"] []))) cfs)
            "combined_balance_sheet.csv" = true)
    ∧ (∀ items, alookup json "StatementsOfCashFlows" = some items →
      (∀ it ∈ items, it.2 = ([] : List Obs)) →
      extract_cash_flow json src
          = ([], .ok (some (Table.mk ["source_file"] [])))
        ∧ ∀ incs bals prior, writesFile
            (combinePhase incs bals
              (appendOpt prior (some (Table.mk ["source_file"] []))))
            "combined_cash_flow.csv" = true) := by
  have happ : ∀ (prior : List Table) (t : Table),
      (appendOpt prior (some t)).isEmpty = false := by
    intro prior t
    simp [appendOpt]
  refine ⟨fun items hfind hempty => ⟨?_, ?_⟩,
          fun items hfind hempty => ⟨?_, ?_⟩,
          fun items hfind hempty => ⟨?_, ?_⟩⟩
  · rw [extract_income_eq_generic]
    exact extractStatement_all_empty _ _ _ json src items hfind hempty
  · intro prior bals cfs
    rw [(writesFile_combinePhase _ bals cfs).1, happ]
    rfl
  · rw [extract_balance_eq_generic]
    exact extractStatement_all_empty _ _ _ json src items hfind hempty
  · intro incs prior cfs
    rw [(writesFile_combinePhase incs _ cfs).2.1, happ]
    rfl
  · rw [extract_cash_eq_generic]
    exact extractStatement_all_empty _ _ _ json src items hfind hempty
  · intro incs bals prior
    rw [(writesFile_combinePhase incs bals _).2.2, happ]
    rfl

/-- C9 (witness): the empty-observations behaviour at the concrete result
whose income section holds Revenue with no observations. -/
theorem extract_empty_section_nonnull_witness :
    (extract_income_statement cexResult "w9.html"
        = ([], .ok (some (Table.mk ["source_file"] []))))
    ∧ ∀ prior bals cfs, writesFile
        (combinePhase (appendOpt prior (some (Table.mk ["source_file"] [])))
          bals cfs)
        "combined_income_statement.csv" = true :=
  (extract_empty_section_nonnull cexResult "w9.html").1 [("Revenue", [])]
    rfl (by decide)

/-- C10: when a line item has several observations sharing one period/date,
the extracted table holds a single cell for that (label, period) pair whose
value is the last such observation's value in sequence order, no exception
is raised and no duplicate column is created. -/
theorem extract_duplicate_period_last_wins (json : ConversionResult) (src : String) :
    (∀ items item vs p v, alookup json "StatementsOfIncome" = some items →
      itemsWF "period" items = true →
      (items.map Prod.fst).Nodup →
      (item, vs) ∈ items →
      lastObsValue "period" vs p = some v →
      p ≠ "source_file" →
      ∃ t, extract_income_statement json src = ([], .ok (some t))
        ∧ t.getCell item p = some v ∧ t.cols.Nodup)
    ∧ (∀ items item vs p v, alookup json "BalanceSheets" = some items →
      itemsWF "date" items = true →
      (items.map Prod.fst).Nodup →
      (item, vs) ∈ items →
      lastObsValue "date" vs p = some v →
      p ≠ "source_file" →
      ∃ t, extract_balance_sheet json src = ([], .ok (some t))
        ∧ t.getCell item p = some v ∧ t.cols.Nodup)
    ∧ (∀ items item vs p v, alookup json "StatementsOfCashFlows" = some items →
      itemsWF "period" items = true →
      (items.map Prod.fst).Nodup →
      (item, vs) ∈ items →
      lastObsValue "period" vs p = some v →
      p ≠ "source_file" →
      ∃ t, extract_cash_flow json src = ([], .ok (some t))
        ∧ t.getCell item p = some v ∧ t.cols.Nodup) := by
  refine ⟨fun items item vs p v hfind hwf hnd hmem hlast hp => ?_,
    fun items item vs p v hfind hwf hnd hmem hlast hp => ?_,
    fun items item vs p v hfind hwf hnd hmem hlast hp => ?_⟩
  · rw [extract_income_eq_generic]
    exact extractStatement_last_wins _ _ _ json src items item p v vs
      hfind hwf hnd hmem hlast hp
  · rw [extract_balance_eq_generic]
    exact extractStatement_last_wins _ _ _ json src items item p v vs
      hfind hwf hnd hmem hlast hp
  · rw [extract_cash_eq_generic]
    exact extractStatement_last_wins _ _ _ json src items item p v vs
      hfind hwf hnd hmem hlast hp

/-- C10 (witness): with two observations for Revenue in period 2021
carrying values 10 then 20, the extracted cell holds 20. -/
theorem extract_duplicate_period_last_wins_witness :
    ∃ t, extract_income_statement dupResult "w10.html" = ([], .ok (some t))
      ∧ t.getCell "Revenue" "2021" = some "20" ∧ t.cols.Nodup :=
  (extract_duplicate_period_last_wins dupResult "w10.html").1 dupItems "Revenue"
    [[("period", "2021"), ("value", "10")], [("period", "2021"), ("value", "20")]]
    "2021" "20" rfl (by decide) (by decide) (by decide) rfl (by decide)
